import Mathlib

/-!
Verification of the recurring-payment pattern detector and predictor of
`backend/prediction_service.py` (class `RecurringPatternDetector`) and the
caller-side duplicate filter of `backend/app.py` (`get_summary`).

Shallow embedding conventions:
* Python `datetime` values are modelled as calendar dates (`PyDate`), since the
  service only uses day granularity; `datetime.now()` becomes an explicit
  `today` parameter.  Date subtraction `(a - b).days` is the difference of
  proleptic-Gregorian day numbers (`rataDie`).
* Python floats are idealised as exact rationals; the one square root in the
  pipeline (`statistics.stdev`) is handled exactly by comparing squares, and
  `round(x, 2)` is round-half-to-even of `100*x`.
* Transactions are modelled with their `date` already parsed (the string-date
  parsing branch of `_group_transactions` only drops unparseable rows).
* Code that would raise (e.g. `transactions[0]` on an empty list) returns
  `none` in the embedding; those call sites are unreachable in the service.
-/

/-- A calendar date with day granularity, standing for a Python `datetime`. -/
structure PyDate where
  year : Nat
  month : Nat
  day : Nat
deriving DecidableEq, Repr, Inhabited

/-- Gregorian leap-year test, as used by Python's `calendar`/`datetime`. -/
def isLeap (y : Nat) : Bool :=
  (y % 4 == 0 && y % 100 != 0) || y % 400 == 0

/-- Number of days in month `m` of year `y` (months outside 1..12 get the
31-day default; such dates never arise from real `datetime` values). -/
def daysInMonth (y m : Nat) : Nat :=
  if m = 2 then (if isLeap y then 29 else 28)
  else if m = 4 ∨ m = 6 ∨ m = 9 ∨ m = 11 then 30
  else 31

/-- Days in year `y` strictly before month `m`. -/
def daysBeforeMonth (y m : Nat) : Nat :=
  ((List.range (m - 1)).map (fun i => daysInMonth y (i + 1))).sum

/-- Proleptic-Gregorian day number; differences of `rataDie` values model
Python's `(a - b).days` for midnight datetimes. -/
def rataDie (d : PyDate) : Int :=
  365 * ((d.year : Int) - 1) + ((d.year : Int) - 1) / 4 - ((d.year : Int) - 1) / 100
    + ((d.year : Int) - 1) / 400 + (daysBeforeMonth d.year d.month : Int) + (d.day : Int)

/-- Calendar-month difference `(b.year - a.year) * 12 + b.month - a.month`,
exactly the `months_diff` expression of the service. -/
def monthsDiff (a b : PyDate) : Int :=
  ((b.year : Int) - (a.year : Int)) * 12 + (b.month : Int) - (a.month : Int)

/-- `datetime(y, m, d)` with the service's `except ValueError` fallback of
"last day of the month" (computed in the source as first-of-next-month minus
one day, which equals `daysInMonth y m`). -/
def mkDateClampedLast (y m d : Nat) : PyDate :=
  if 1 ≤ d ∧ d ≤ daysInMonth y m then ⟨y, m, d⟩ else ⟨y, m, daysInMonth y m⟩

/-- `datetime(y, m, d)` with the yearly-prediction fallback of day 28
(`except ValueError: expected_date = datetime(year, month, 28)`). -/
def mkDateClamped28 (y m d : Nat) : PyDate :=
  if 1 ≤ d ∧ d ≤ daysInMonth y m then ⟨y, m, d⟩ else ⟨y, m, 28⟩

/-- The "expected next month" date used by both `_detect_monthly_pattern` and
the monthly branch of `generate_predictions_for_month`: one calendar month
after `last`, same day-of-month, clamped to the end of the month when that day
does not exist. -/
def expectedNextMonthDate (last : PyDate) : PyDate :=
  if last.month = 12 then mkDateClampedLast (last.year + 1) 1 last.day
  else mkDateClampedLast last.year (last.month + 1) last.day

/-- Structural helper for `normMonth` (the fuel bounds the iteration count,
which is at most the month value itself). -/
def normMonthAux : Nat → Nat → Nat → Nat × Nat
  | 0, y, m => (y, m)
  | fuel + 1, y, m => if 12 < m then normMonthAux fuel (y + 1) (m - 12) else (y, m)

/-- Normalisation loop `while expected_month > 12: expected_month -= 12;
expected_year += 1` from the quarterly prediction branch. -/
def normMonth (y m : Nat) : Nat × Nat := normMonthAux m y m

/-- Python's `str.strip()` whitespace test (the ASCII whitespace characters). -/
def isPySpace (c : Char) : Bool :=
  c = ' ' || c = '\t' || c = '\n' || c = '\r' || c = '\x0b' || c = '\x0c'

/-- `str.strip()`: drop leading and trailing whitespace (implemented over the
character list so that it evaluates by kernel reduction). -/
def pyStrip (s : String) : String :=
  String.mk (((s.data.dropWhile isPySpace).reverse.dropWhile isPySpace).reverse)

/-- An input transaction; fields are the dictionary keys the service reads. -/
structure Txn where
  date : PyDate
  amount : ℚ
  currency : String
  type : String
  recipient : String
  category : String
deriving DecidableEq, Repr, Inhabited

/-- The grouping key `(recipient, category, type)`. -/
def GroupKey := String × String × String
deriving DecidableEq, Repr, Inhabited

/-- Insertion of `t` into a date-ascending list.  `t` is placed before any
element of equal date: since `sortByDate` folds from the right, `t` is the
earliest-in-input element at insertion time, so ties keep their input order,
matching Python's stable `sorted(key=date)`. -/
def insertByDate (t : Txn) : List Txn → List Txn
  | [] => [t]
  | u :: us =>
    if rataDie u.date < rataDie t.date then u :: insertByDate t us
    else t :: u :: us

/-- `sorted(group_transactions, key=lambda x: x['date'])`: a stable
date-ascending sort. -/
def sortByDate (l : List Txn) : List Txn := l.foldr insertByDate []

/-- Append `t` under key `k` in an insertion-ordered association list,
modelling Python's `defaultdict(list)` (dicts preserve insertion order). -/
def addToGroups (k : GroupKey) (t : Txn) :
    List (GroupKey × List Txn) → List (GroupKey × List Txn)
  | [] => [(k, [t])]
  | (k', ts) :: rest =>
    if k' = k then (k', ts ++ [t]) :: rest else (k', ts) :: addToGroups k t rest

/-- `_group_transactions`: group by `(recipient.strip(), category, type)`,
dropping transactions with a whitespace-only recipient.  (The string-date
parsing of the source is not modelled: `Txn.date` is already a date.) -/
def groupTransactions (l : List Txn) : List (GroupKey × List Txn) :=
  l.foldl (fun gs t =>
    let recipient := pyStrip t.recipient
    if recipient = "" then gs
    else addToGroups (recipient, t.category, t.type) t gs) []

/-- `statistics.mean` over rationals (sum divided by length; `0` on `[]`,
where the source never calls it). -/
def meanQ (xs : List ℚ) : ℚ := xs.sum / xs.length

/-- The square of `statistics.stdev`: the sample variance with Bessel's
`n - 1` divisor (`0` on lists of length ≤ 1, where the source never calls
it). -/
def sampleVariance (xs : List ℚ) : ℚ :=
  ((xs.map (fun x => (x - meanQ xs) ^ 2)).sum) / ((xs.length : ℚ) - 1)

/-- The square of the population standard deviation `statistics.pstdev`
(divisor `n`); used only to compare the implementation against the spec's
"population standard deviation" wording. -/
def popVariance (xs : List ℚ) : ℚ :=
  ((xs.map (fun x => (x - meanQ xs) ^ 2)).sum) / (xs.length : ℚ)

/-- Stable ascending insertion for natural numbers. -/
def insertNat (n : Nat) : List Nat → List Nat
  | [] => [n]
  | m :: ms => if m ≤ n then m :: insertNat n ms else n :: m :: ms

/-- Ascending sort of a list of naturals. -/
def sortNat (l : List Nat) : List Nat := l.foldr insertNat []

/-- `statistics.median` over naturals, returning a rational (mean of the two
middle values for even length; `0` on `[]`, where Python would raise). -/
def medianQ (xs : List Nat) : ℚ :=
  let s := sortNat xs
  let n := s.length
  if n = 0 then 0
  else if n % 2 = 1 then (s.getD (n / 2) 0 : ℚ)
  else ((s.getD (n / 2 - 1) 0 : ℚ) + (s.getD (n / 2) 0 : ℚ)) / 2

/-- Python `int()` truncation of a nonnegative rational (floor). -/
def pyIntTrunc (q : ℚ) : Nat := (⌊q⌋).toNat

/-- Round-half-to-even to the nearest integer, the tie-breaking rule of
Python's built-in `round`. -/
def roundHalfEven (q : ℚ) : ℤ :=
  let f := ⌊q⌋
  let r := q - f
  if r < 1 / 2 then f
  else if 1 / 2 < r then f + 1
  else if f % 2 = 0 then f else f + 1

/-- Python `round(x, 2)` (floats idealised as exact rationals). -/
def pyRound2 (q : ℚ) : ℚ := (roundHalfEven (q * 100) : ℚ) / 100

/-- Compare `a - b * Real.sqrt w` against `t`, assuming `0 ≤ b` and `0 ≤ w`,
using only rational arithmetic (square both sides of `a - t` vs `b * sqrt w`). -/
def cmpLinSqrt (a b w t : ℚ) : Ordering :=
  let d := a - t
  if d < 0 then Ordering.lt
  else if d ^ 2 < b ^ 2 * w then Ordering.lt
  else if b ^ 2 * w < d ^ 2 then Ordering.gt
  else Ordering.eq

/-- Greatest `k ∈ [0, 100]` with `(k : ℝ) ≤ a - b * Real.sqrt w`
(the integer floor of the 100-scaled confidence, which lies in `[0, 100]`). -/
def floor100Conf (a b w : ℚ) : Nat :=
  (List.range 101).foldl
    (fun (acc k : Nat) => if cmpLinSqrt a b w (k : ℚ) ≠ Ordering.lt then k else acc) 0

/-- `_calculate_confidence(transactions, variability)` where the variability
argument is `Real.sqrt w` (`w` is the squared coefficient of variation):
`round(min(n/6, 1) * 0.6 + max(0, 1 - sqrt w) * 0.4, 2)`, computed exactly
with rational arithmetic via `cmpLinSqrt`. -/
def calculateConfidenceFromCovSq (n : Nat) (w : ℚ) : ℚ :=
  let os : ℚ := min ((n : ℚ) / 6) 1
  if 1 < w then
    pyRound2 (os * (6 / 10))
  else
    let a := 60 * os + 40
    let f := floor100Conf a 40 w
    let k : Nat :=
      match cmpLinSqrt a 40 w ((f : ℚ) + 1 / 2) with
      | Ordering.gt => f + 1
      | Ordering.lt => f
      | Ordering.eq => if f % 2 = 0 then f else f + 1
    (Nat.cast k : ℚ) / 100

/-- `_calculate_confidence` with a rational variability argument (the shape
used to state the confidence-formula claim):
`round(min(n/6, 1.0) * 0.6 + max(0, 1.0 - v) * 0.4, 2)`. -/
def calculateConfidence (n : Nat) (v : ℚ) : ℚ :=
  let occurrenceScore : ℚ := min ((n : ℚ) / 6) 1
  let consistencyScore : ℚ := max 0 (1 - v)
  pyRound2 (occurrenceScore * (6 / 10) + consistencyScore * (4 / 10))

/-- Truncate to 32 bits. -/
def w32 (n : Nat) : Nat := n % 4294967296

/-- 32-bit right rotation. -/
def rotr32 (x n : Nat) : Nat := w32 ((x >>> n) ||| (x <<< (32 - n)))

/-- SHA-256 `Ch(x, y, z)`. -/
def sha256Ch (x y z : Nat) : Nat := (x &&& y) ^^^ ((x ^^^ 4294967295) &&& z)

/-- SHA-256 `Maj(x, y, z)`. -/
def sha256Maj (x y z : Nat) : Nat := ((x &&& y) ^^^ (x &&& z)) ^^^ (y &&& z)

/-- SHA-256 big sigma 0. -/
def bigSigma0 (x : Nat) : Nat := (rotr32 x 2 ^^^ rotr32 x 13) ^^^ rotr32 x 22

/-- SHA-256 big sigma 1. -/
def bigSigma1 (x : Nat) : Nat := (rotr32 x 6 ^^^ rotr32 x 11) ^^^ rotr32 x 25

/-- SHA-256 small sigma 0. -/
def smallSigma0 (x : Nat) : Nat := (rotr32 x 7 ^^^ rotr32 x 18) ^^^ (x >>> 3)

/-- SHA-256 small sigma 1. -/
def smallSigma1 (x : Nat) : Nat := (rotr32 x 17 ^^^ rotr32 x 19) ^^^ (x >>> 10)

/-- The 64 SHA-256 round constants. -/
def sha256K : List Nat :=
  [1116352408, 1899447441, 3049323471, 3921009573, 961987163, 1508970993,
   2453635748, 2870763221, 3624381080, 310598401, 607225278, 1426881987,
   1925078388, 2162078206, 2614888103, 3248222580, 3835390401, 4022224774,
   264347078, 604807628, 770255983, 1249150122, 1555081692, 1996064986,
   2554220882, 2821834349, 2952996808, 3210313671, 3336571891, 3584528711,
   113926993, 338241895, 666307205, 773529912, 1294757372, 1396182291,
   1695183700, 1986661051, 2177026350, 2456956037, 2730485921, 2820302411,
   3259730800, 3345764771, 3516065817, 3600352804, 4094571909, 275423344,
   430227734, 506948616, 659060556, 883997877, 958139571, 1322822218,
   1537002063, 1747873779, 1955562222, 2024104815, 2227730452, 2361852424,
   2428436474, 2756734187, 3204031479, 3329325298]

/-- The SHA-256 initial hash value. -/
def sha256H0 : List Nat :=
  [1779033703, 3144134277, 1013904242, 2773480762,
   1359893119, 2600822924, 528734635, 1541459225]

/-- SHA-256 message padding: append `0x80`, zeros, and the 64-bit big-endian
bit length, reaching a multiple of 64 bytes. -/
def sha256Pad (msg : List Nat) : List Nat :=
  let len := msg.length
  let padLen := (120 - (len + 1) % 64) % 64
  let bitLen := 8 * len
  msg ++ [128] ++ List.replicate padLen 0
      ++ (List.range 8).map (fun i => (bitLen >>> (8 * (7 - i))) % 256)

/-- Structural helper for `chunks64` (the fuel bounds the chunk count, which
is at most the byte count). -/
def chunks64Aux : Nat → List Nat → List (List Nat)
  | _, [] => []
  | 0, _ => []
  | fuel + 1, b :: rest => ((b :: rest).take 64) :: chunks64Aux fuel ((b :: rest).drop 64)

/-- Split a byte list into 64-byte chunks. -/
def chunks64 (l : List Nat) : List (List Nat) := chunks64Aux l.length l

/-- The 64-entry SHA-256 message schedule from a 64-byte chunk. -/
def sha256Schedule (chunk : List Nat) : List Nat :=
  let w0 := (List.range 16).map (fun j =>
    chunk.getD (4 * j) 0 * 16777216 + chunk.getD (4 * j + 1) 0 * 65536
      + chunk.getD (4 * j + 2) 0 * 256 + chunk.getD (4 * j + 3) 0)
  (List.range 48).foldl (fun w _ =>
    let i := w.length
    w ++ [w32 (smallSigma1 (w.getD (i - 2) 0) + w.getD (i - 7) 0
                + smallSigma0 (w.getD (i - 15) 0) + w.getD (i - 16) 0)]) w0

/-- One SHA-256 compression step on the 8-word working state. -/
def sha256Round (st : List Nat) (kw : Nat × Nat) : List Nat :=
  match st with
  | [a, b, c, d, e, f, g, h] =>
    let t1 := w32 (h + bigSigma1 e + sha256Ch e f g + kw.1 + kw.2)
    let t2 := w32 (bigSigma0 a + sha256Maj a b c)
    [w32 (t1 + t2), a, b, c, w32 (d + t1), e, f, g]
  | other => other

/-- Process one 64-byte chunk, updating the 8-word hash state. -/
def sha256Chunk (hs : List Nat) (chunk : List Nat) : List Nat :=
  let w := sha256Schedule chunk
  let final := (sha256K.zip w).foldl sha256Round hs
  (hs.zip final).map (fun p => w32 (p.1 + p.2))

/-- SHA-256 digest of a byte list, as eight 32-bit words. -/
def sha256Words (msg : List Nat) : List Nat :=
  (chunks64 (sha256Pad msg)).foldl sha256Chunk sha256H0

/-- Lowercase hex character for a nibble. -/
def hexChar (n : Nat) : Char := ("0123456789abcdef".toList).getD n '0'

/-- A 32-bit word as 8 lowercase hex characters. -/
def wordToHex (x : Nat) : List Char :=
  (List.range 8).map (fun i => hexChar ((x >>> (4 * (7 - i))) % 16))

/-- The hex digest characters of a SHA-256 digest. -/
def sha256HexChars (msg : List Nat) : List Char :=
  ((sha256Words msg).map wordToHex).flatten

/-- `hashlib.sha256(...).hexdigest()` over a byte list. -/
def sha256Hex (msg : List Nat) : String :=
  String.mk (sha256HexChars msg)

/-- UTF-8 encoding of a single code point. -/
def utf8BytesOfNat (c : Nat) : List Nat :=
  if c < 128 then [c]
  else if c < 2048 then [192 ||| (c >>> 6), 128 ||| (c &&& 63)]
  else if c < 65536 then
    [224 ||| (c >>> 12), 128 ||| ((c >>> 6) &&& 63), 128 ||| (c &&& 63)]
  else
    [240 ||| (c >>> 18), 128 ||| ((c >>> 12) &&& 63), 128 ||| ((c >>> 6) &&& 63),
     128 ||| (c &&& 63)]

/-- UTF-8 bytes of a string, matching Python's `str.encode()`. -/
def strBytes (s : String) : List Nat :=
  (s.data.map (fun ch => utf8BytesOfNat ch.toNat)).flatten

/-- `_generate_prediction_key`: the first 16 hex characters of
`sha256(f"{recipient}|{category}|{recurrence_type}")`. -/
def generatePredictionKey (recipient category recurrenceType : String) : String :=
  String.mk
    ((sha256HexChars (strBytes (recipient ++ "|" ++ category ++ "|" ++ recurrenceType))).take 16)

/-- A detected pattern, with the fields built by `_create_pattern_metadata`
(ISO strings kept as dates; `historical_payments` entries are
`(date, amount, currency)`). -/
structure Pattern where
  recipient : String
  category : String
  type : String
  recurrence_type : String
  average_amount : ℚ
  typical_day : Nat
  currency : String
  confidence : ℚ
  occurrences : Nat
  last_date : PyDate
  historical_dates : List PyDate
  historical_payments : List (PyDate × ℚ × String)
  prediction_key : String
deriving DecidableEq, Repr, Inhabited

/-- The absolute amounts `[abs(float(t['amount'])) for t in transactions]`. -/
def absAmounts (l : List Txn) : List ℚ := l.map (fun t => |t.amount|)

/-- The source's variability gate `variability > self.MAX_VARIABILITY`, where
`variability = stdev / mean if mean > 0 else 0` and only computed when more
than one amount exists.  Since both sides are nonnegative,
`stdev / mean > 3/10` is equivalent to `stdev^2 > (3/10 * mean)^2`, which is
decidable over the rationals. -/
def variabilityExceeds (amounts : List ℚ) : Prop :=
  1 < amounts.length ∧ 0 < meanQ amounts
    ∧ (3 / 10 * meanQ amounts) ^ 2 < sampleVariance amounts

instance (amounts : List ℚ) : Decidable (variabilityExceeds amounts) :=
  inferInstanceAs (Decidable (1 < amounts.length ∧ 0 < meanQ amounts
    ∧ (3 / 10 * meanQ amounts) ^ 2 < sampleVariance amounts))

/-- The squared coefficient of variation the scorer passes (as `variability`,
i.e. its square root) to `_calculate_confidence`; `0` exactly when the source
sets `variability = 0` (single amount, or zero mean). -/
def covSquared (amounts : List ℚ) : ℚ :=
  if 1 < amounts.length ∧ 0 < meanQ amounts then
    sampleVariance amounts / (meanQ amounts) ^ 2
  else 0

/-- `_create_pattern_metadata`: representative amount (last-3 average for
monthly runs of length ≥ 3, otherwise overall average), sample-stdev
variability gate at 0.30, median day-of-month, confidence, and the prediction
key.  Returns `none` when the run is too variable (and on the empty list,
where Python's `transactions[0]` would raise; never called so). -/
def createPatternMetadata (transactions : List Txn) (key : GroupKey)
    (recurrenceType : String) : Option Pattern :=
  match transactions with
  | [] => none
  | t0 :: rest =>
    let recipient := key.1
    let category := key.2.1
    let txnType := key.2.2
    let avgAmount :=
      if recurrenceType = "monthly" ∧ 3 ≤ transactions.length then
        meanQ (absAmounts (transactions.drop (transactions.length - 3)))
      else meanQ (absAmounts transactions)
    let allAmounts := absAmounts transactions
    if variabilityExceeds allAmounts then none
    else
      some
        { recipient := recipient
          category := category
          type := txnType
          recurrence_type := recurrenceType
          average_amount := avgAmount
          typical_day := pyIntTrunc (medianQ (transactions.map (fun t => t.date.day)))
          currency := t0.currency
          confidence := calculateConfidenceFromCovSq transactions.length (covSquared allAmounts)
          occurrences := transactions.length
          last_date := ((t0 :: rest).getLast (List.cons_ne_nil t0 rest)).date
          historical_dates := transactions.map (fun t => t.date)
          historical_payments := transactions.map (fun t => (t.date, t.amount, t.currency))
          prediction_key := generatePredictionKey recipient category recurrenceType }

/-- Modelled from the spec: the variability gate as the spec words it, with the
population standard deviation (`statistics.pstdev`) in place of the sample one.
Used only to exhibit the divergence between the spec's "population standard
deviation" and the source's `statistics.stdev`. -/
def variabilityExceedsPop (amounts : List ℚ) : Prop :=
  1 < amounts.length ∧ 0 < meanQ amounts
    ∧ (3 / 10 * meanQ amounts) ^ 2 < popVariance amounts

instance (amounts : List ℚ) : Decidable (variabilityExceedsPop amounts) :=
  inferInstanceAs (Decidable (1 < amounts.length ∧ 0 < meanQ amounts
    ∧ (3 / 10 * meanQ amounts) ^ 2 < popVariance amounts))

/-- The monthly detection loop of `_detect_monthly_pattern`, walking the
date-sorted tail with state `(matching_transactions, last_date,
consecutive_count)`.  Within ±3 days of the expected next-month date the run
extends; exactly one month ahead but outside the window restarts the run; a
gap of more than one month stops the scan if the run already has ≥ 2 elements
and restarts it otherwise; any other case (same month, outside window) leaves
the state unchanged. -/
def monthlyLoop : List Txn → List Txn → PyDate → Nat → List Txn × Nat
  | [], matching, _, count => (matching, count)
  | t :: rest, matching, lastDate, count =>
    let expected := expectedNextMonthDate lastDate
    if (rataDie t.date - rataDie expected).natAbs ≤ 3 then
      monthlyLoop rest (matching ++ [t]) t.date (count + 1)
    else
      let md := monthsDiff lastDate t.date
      if md = 1 then monthlyLoop rest [t] t.date 1
      else if 1 < md then
        if 2 ≤ count then (matching, count)
        else monthlyLoop rest [t] t.date 1
      else monthlyLoop rest matching lastDate count

/-- `_detect_monthly_pattern` (window ±3 days, minimum 2 occurrences). -/
def detectMonthlyPattern (sortedTxns : List Txn) (key : GroupKey) : Option Pattern :=
  if sortedTxns.length < 2 then none
  else
    match sortedTxns with
    | [] => none
    | t :: rest =>
      let (matching, count) := monthlyLoop rest [t] t.date 1
      if 2 ≤ count then createPatternMetadata matching key "monthly" else none

/-- The pair scan of `_detect_quarterly_pattern` over
`(sorted_txns[i], sorted_txns[i+1])`: a pair with month-difference exactly 3
joins the run (seeding it with both endpoints when empty); otherwise the scan
stops if the run already has ≥ 3 elements and resets it to empty if not. -/
def quarterlyLoop : List Txn → List Txn → List Txn
  | matching, t :: u :: rest =>
    if monthsDiff t.date u.date = 3 then
      quarterlyLoop (if matching.isEmpty then [t, u] else matching ++ [u]) (u :: rest)
    else if 3 ≤ matching.length then matching
    else quarterlyLoop [] (u :: rest)
  | matching, _ => matching

/-- `_detect_quarterly_pattern` (exact 3-month spacing, minimum 3 occurrences). -/
def detectQuarterlyPattern (sortedTxns : List Txn) (key : GroupKey) : Option Pattern :=
  if sortedTxns.length < 3 then none
  else
    let matching := quarterlyLoop [] sortedTxns
    if 3 ≤ matching.length then createPatternMetadata matching key "quarterly" else none

/-- The pair scan of `_detect_yearly_pattern`: a pair joins the run when the
month-difference is between 11 and 13 and the day-of-month difference is at
most 7; otherwise the scan stops if the run already has ≥ 2 elements and
resets it to empty if not.  (A qualifying month-distance whose day test fails
falls through without resetting, exactly as in the source's `if`/`elif`/`else`.) -/
def yearlyLoop : List Txn → List Txn → List Txn
  | matching, t :: u :: rest =>
    if 11 ≤ monthsDiff t.date u.date ∧ monthsDiff t.date u.date ≤ 13 then
      (if ((u.date.day : Int) - (t.date.day : Int)).natAbs ≤ 7 then
        yearlyLoop (if matching.isEmpty then [t, u] else matching ++ [u]) (u :: rest)
      else yearlyLoop matching (u :: rest))
    else if 2 ≤ matching.length then matching
    else yearlyLoop [] (u :: rest)
  | matching, _ => matching

/-- `_detect_yearly_pattern` (11–13 month spacing, ±7 day window, minimum 2
occurrences). -/
def detectYearlyPattern (sortedTxns : List Txn) (key : GroupKey) : Option Pattern :=
  if sortedTxns.length < 2 then none
  else
    let matching := yearlyLoop [] sortedTxns
    if 2 ≤ matching.length then createPatternMetadata matching key "yearly" else none

/-- The per-group body of `detect_recurring_patterns`: groups below the
monthly minimum are skipped, otherwise the date-sorted group is offered to the
monthly, quarterly and yearly matchers in that priority order and the first
success is appended. -/
def tryGroupMatchers (patterns : List Pattern) (kg : GroupKey × List Txn) : List Pattern :=
  if kg.2.length < 2 then patterns
  else
    let sortedTxns := sortByDate kg.2
    match detectMonthlyPattern sortedTxns kg.1 with
    | some p => patterns ++ [p]
    | none =>
      match detectQuarterlyPattern sortedTxns kg.1 with
      | some p => patterns ++ [p]
      | none =>
        match detectYearlyPattern sortedTxns kg.1 with
        | some p => patterns ++ [p]
        | none => patterns

/-- `detect_recurring_patterns`: drop internal transfers, group, and per group
try the three cadence matchers in priority order. -/
def detectRecurringPatterns (transactions : List Txn) : List Pattern :=
  let filtered := transactions.filter (fun t => t.category ≠ "Internal Transfer")
  (groupTransactions filtered).foldl tryGroupMatchers []

/-- A predicted transaction, with the fields built by
`generate_predictions_for_month` (`date` kept as a date instead of an ISO
string). -/
structure Prediction where
  date : PyDate
  amount : ℚ
  currency : String
  type : String
  recipient : String
  description : String
  category : String
  account : String
  is_predicted : Bool
  prediction_key : String
  confidence : ℚ
  recurrence_type : String
  based_on : List (PyDate × ℚ × String)
deriving DecidableEq, Repr, Inhabited

/-- Model of Python `int(s)` restricted to the shapes that matter here:
optional surrounding whitespace, an optional sign, then a nonempty digit
string (digit-group underscores are not modelled). -/
def parsePyIntChars (cs : List Char) : Option Int :=
  let t := ((cs.dropWhile isPySpace).reverse.dropWhile isPySpace).reverse
  let core := match t with
    | c :: rest => if c = '-' ∨ c = '+' then rest else t
    | [] => t
  if core.isEmpty ∨ ¬ (core.all fun c => 48 ≤ c.toNat && c.toNat ≤ 57) then none
  else
    let n : Nat := core.foldl (fun acc c => acc * 10 + (c.toNat - 48)) 0
    match t with
    | '-' :: _ => some (-(n : Int))
    | _ => some (n : Int)

/-- Splitting on a separator character, as Python's `str.split('-')`. -/
def splitOnCharAux (sep : Char) : List Char → List Char → List (List Char)
  | [], acc => [acc.reverse]
  | c :: cs, acc =>
    if c = sep then acc.reverse :: splitOnCharAux sep cs []
    else splitOnCharAux sep cs (c :: acc)

/-- `s.split('-')` over the character list. -/
def splitOnChar (sep : Char) (cs : List Char) : List (List Char) :=
  splitOnCharAux sep cs []

/-- The `try` block of `generate_predictions_for_month`:
`target_year, target_month_num = map(int, target_month.split('-'))` followed by
`datetime(target_year, target_month_num, 1)`; `none` models the `except` path
(wrong number of parts, a non-integer part, or an invalid calendar month). -/
def parseTargetMonth (s : String) : Option (Nat × Nat) :=
  match (splitOnChar '-' s.data).map parsePyIntChars with
  | [some y, some m] =>
    if 1 ≤ y ∧ y ≤ 9999 ∧ 1 ≤ m ∧ m ≤ 12 then some (y.toNat, m.toNat) else none
  | _ => none

/-- The prediction record built for a due pattern: `typical_day` clamped into
the target month, the average amount signed by `type`, and the
pattern-type-specific description. -/
def mkPrediction (p : Pattern) (targetYear targetMonthNum : Nat) : Prediction :=
  let predictedDate := mkDateClampedLast targetYear targetMonthNum p.typical_day
  let amount := if p.type = "expense" then -|p.average_amount| else |p.average_amount|
  let description :=
    if p.recurrence_type = "monthly" ∧ 3 ≤ p.occurrences then
      "Predicted based on last 3 months (of " ++ toString p.occurrences
        ++ " total payments)"
    else
      "Predicted based on " ++ toString p.occurrences ++ " past payments"
  { date := predictedDate
    amount := amount
    currency := p.currency
    type := p.type
    recipient := p.recipient
    description := description
    category := p.category
    account := "Predicted"
    is_predicted := true
    prediction_key := p.prediction_key
    confidence := p.confidence
    recurrence_type := p.recurrence_type
    based_on := p.historical_payments }

/-- The per-pattern body of `generate_predictions_for_month` (after the
dismissal check): the cadence-specific overdue/due decision, returning the
prediction when `should_predict` ends up true. -/
def patternPrediction (p : Pattern) (targetYear targetMonthNum : Nat)
    (today : PyDate) : Option Prediction :=
  if p.recurrence_type = "monthly" then
    let expected := expectedNextMonthDate p.last_date
    if 7 < rataDie today - rataDie expected then none
    else some (mkPrediction p targetYear targetMonthNum)
  else if p.recurrence_type = "quarterly" then
    let ym := normMonth p.last_date.year (p.last_date.month + 3)
    let expected := mkDateClampedLast ym.1 ym.2 p.last_date.day
    if 7 < rataDie today - rataDie expected then none
    else
      let monthsSince := ((targetYear : Int) - (p.last_date.year : Int)) * 12
        + (targetMonthNum : Int) - (p.last_date.month : Int)
      if 2 ≤ monthsSince ∧ monthsSince ≤ 4 then
        some (mkPrediction p targetYear targetMonthNum)
      else none
  else if p.recurrence_type = "yearly" then
    let expected := mkDateClamped28 (p.last_date.year + 1) p.last_date.month p.last_date.day
    if 7 < rataDie today - rataDie expected then none
    else
      if targetMonthNum = p.last_date.month
          ∧ 1 ≤ (targetYear : Int) - (p.last_date.year : Int) then
        some (mkPrediction p targetYear targetMonthNum)
      else none
  else none

/-- `generate_predictions_for_month(patterns, target_month,
dismissed_predictions)`, with `datetime.now()` passed explicitly as `today`
and the dismissed-key set as a list. -/
def generatePredictionsForMonth (patterns : List Pattern) (targetMonth : String)
    (dismissedPredictions : List String) (today : PyDate) : List Prediction :=
  match parseTargetMonth targetMonth with
  | none => []
  | some ym =>
    patterns.foldl (fun predictions p =>
      if p.prediction_key ∈ dismissedPredictions then predictions
      else
        match patternPrediction p ym.1 ym.2 today with
        | some pr => predictions ++ [pr]
        | none => predictions) []

/-- An already-posted transaction of the target month as stored in
`monthly_data`'s per-category transaction lists; only the fields the duplicate
filter reads. -/
structure RealTxn where
  recipient : String
  amount : ℚ
deriving DecidableEq, Repr, Inhabited

/-- The slice of `monthly_data[current_month]` the duplicate filter of
`get_summary` reads: real transactions per category, split by direction. -/
structure MonthData where
  income_transactions : List (String × List RealTxn)
  expense_transactions : List (String × List RealTxn)
deriving DecidableEq, Repr, Inhabited

/-- `monthly_data[month][...].get(category, [])` on an association list. -/
def lookupCat (l : List (String × List RealTxn)) (c : String) : List RealTxn :=
  match l.find? (fun e => e.1 = c) with
  | some e => e.2
  | none => []

/-- The existing transactions the duplicate filter compares a prediction
against: the target month's real transactions of the prediction's category,
from the income or expense side according to the prediction's type. -/
def existingTransactionsFor (md : MonthData) (pr : Prediction) : List RealTxn :=
  if pr.type = "income" then lookupCat md.income_transactions pr.category
  else lookupCat md.expense_transactions pr.category

/-- The duplicate test of `get_summary`: some existing transaction of the same
category (on the prediction's income/expense side) has exactly the
prediction's recipient and a relative amount difference below 10%
(`amount_diff` is forced to 0 when the predicted amount is 0). -/
def isDuplicatePrediction (md : MonthData) (pr : Prediction) : Bool :=
  let predAmount := |pr.amount|
  (existingTransactionsFor md pr).any (fun txn =>
    txn.recipient = pr.recipient
      ∧ (if 0 < predAmount then |(|txn.amount|) - predAmount| / predAmount < 1 / 10
         else True))

/-- The caller-side filter of `get_summary`: keep exactly the predictions that
are not duplicates of an already-posted transaction. -/
def filterPredictions (md : MonthData) (predictions : List Prediction) : List Prediction :=
  predictions.filter (fun pr => ! isDuplicatePrediction md pr)

/-- Modelled from the spec: `_create_pattern_metadata` exactly as the source,
except that the variability gate uses the population standard deviation
("population standard deviation ÷ mean"), the reading the spec asserts.
Used only to exhibit the divergence from the source's `statistics.stdev`. -/
def createPatternMetadataPopModel (transactions : List Txn) (key : GroupKey)
    (recurrenceType : String) : Option Pattern :=
  match transactions with
  | [] => none
  | t0 :: rest =>
    let recipient := key.1
    let category := key.2.1
    let txnType := key.2.2
    let avgAmount :=
      if recurrenceType = "monthly" ∧ 3 ≤ transactions.length then
        meanQ (absAmounts (transactions.drop (transactions.length - 3)))
      else meanQ (absAmounts transactions)
    let allAmounts := absAmounts transactions
    if variabilityExceedsPop allAmounts then none
    else
      some
        { recipient := recipient
          category := category
          type := txnType
          recurrence_type := recurrenceType
          average_amount := avgAmount
          typical_day := pyIntTrunc (medianQ (transactions.map (fun t => t.date.day)))
          currency := t0.currency
          confidence := calculateConfidenceFromCovSq transactions.length (covSquared allAmounts)
          occurrences := transactions.length
          last_date := ((t0 :: rest).getLast (List.cons_ne_nil t0 rest)).date
          historical_dates := transactions.map (fun t => t.date)
          historical_payments := transactions.map (fun t => (t.date, t.amount, t.currency))
          prediction_key := generatePredictionKey recipient category recurrenceType }

/-- The within-window relation of the monthly matcher: `d2` is at most 3 days
away from the expected next-month date after `d1`. -/
def monthlyWindowOk (d1 d2 : PyDate) : Prop :=
  (rataDie d2 - rataDie (expectedNextMonthDate d1)).natAbs ≤ 3

instance (d1 d2 : PyDate) : Decidable (monthlyWindowOk d1 d2) :=
  inferInstanceAs (Decidable ((rataDie d2 - rataDie (expectedNextMonthDate d1)).natAbs ≤ 3))

/-- A list of dates forming a contiguous monthly-cadence run (each consecutive
pair within the ±3-day window of the expected next-month date). -/
def monthlyChain (ds : List PyDate) : Prop := List.Chain' monthlyWindowOk ds

/-- A structurally recursive decision procedure for `monthlyChain`, so that it
evaluates by kernel reduction on concrete date lists. -/
def decMonthlyChain : (ds : List PyDate) → Decidable (monthlyChain ds)
  | [] => isTrue List.chain'_nil
  | [d] => isTrue (List.chain'_singleton d)
  | d1 :: d2 :: rest =>
    match decMonthlyChain (d2 :: rest), (inferInstance : Decidable (monthlyWindowOk d1 d2)) with
    | isTrue ht, isTrue hw => isTrue (List.chain'_cons.mpr ⟨hw, ht⟩)
    | isFalse ht, _ => isFalse (fun hc => ht (List.chain'_cons.mp hc).2)
    | _, isFalse hw => isFalse (fun hc => hw (List.chain'_cons.mp hc).1)

instance (ds : List PyDate) : Decidable (monthlyChain ds) := decMonthlyChain ds

/-- The exact-3-calendar-month relation of the quarterly matcher. -/
def quarterlyStep (d1 d2 : PyDate) : Prop := monthsDiff d1 d2 = 3

instance (d1 d2 : PyDate) : Decidable (quarterlyStep d1 d2) :=
  inferInstanceAs (Decidable (monthsDiff d1 d2 = 3))

/-- Modelled from the spec's wording of the quarterly matcher: scan the
consecutive pairs; a pair qualifies exactly when the month-difference is 3
(extending the run, or seeding it with both endpoints); a non-qualifying pair
accepts the accumulated run early when it meets the minimum of 3 and resets it
to empty otherwise. -/
def specQuarterlyPairScan : List (Txn × Txn) → List Txn → List Txn
  | [], run => run
  | p :: ps, run =>
    if monthsDiff p.1.date p.2.date = 3 then
      specQuarterlyPairScan ps (if run.isEmpty then [p.1, p.2] else run ++ [p.2])
    else if 3 ≤ run.length then run
    else specQuarterlyPairScan ps []

/-- Modelled from the spec: the run the quarterly matcher should accumulate
over a date-sorted group, per the pair-scan description. -/
def specQuarterlyRun (sortedTxns : List Txn) : List Txn :=
  specQuarterlyPairScan (sortedTxns.zip sortedTxns.tail) []

/-- Concrete example: the spec's Gym group (monthly, amounts 50/50/52). -/
def exampleGym : List Txn :=
  [ { date := ⟨2024, 1, 5⟩, amount := -50, currency := "EUR", type := "expense",
      recipient := "Gym", category := "Fitness" },
    { date := ⟨2024, 2, 5⟩, amount := -50, currency := "EUR", type := "expense",
      recipient := "Gym", category := "Fitness" },
    { date := ⟨2024, 3, 6⟩, amount := -52, currency := "EUR", type := "expense",
      recipient := "Gym", category := "Fitness" } ]

/-- Concrete example: a two-occurrence run (Jan/Feb) followed by a gap and a
longer trailing run (May/Jun/Jul), all on day 5. -/
def exampleGapGroup : List Txn :=
  [ { date := ⟨2024, 1, 5⟩, amount := -50, currency := "EUR", type := "expense",
      recipient := "Gym", category := "Fitness" },
    { date := ⟨2024, 2, 5⟩, amount := -50, currency := "EUR", type := "expense",
      recipient := "Gym", category := "Fitness" },
    { date := ⟨2024, 5, 5⟩, amount := -50, currency := "EUR", type := "expense",
      recipient := "Gym", category := "Fitness" },
    { date := ⟨2024, 6, 5⟩, amount := -50, currency := "EUR", type := "expense",
      recipient := "Gym", category := "Fitness" },
    { date := ⟨2024, 7, 5⟩, amount := -50, currency := "EUR", type := "expense",
      recipient := "Gym", category := "Fitness" } ]

/-- Concrete example: a monthly-spaced pair with amounts 100 and 170, whose
population CoV is below 0.30 but whose sample CoV is above it. -/
def exampleVariable : List Txn :=
  [ { date := ⟨2024, 1, 5⟩, amount := -100, currency := "EUR", type := "expense",
      recipient := "Util", category := "Utilities" },
    { date := ⟨2024, 2, 5⟩, amount := -170, currency := "EUR", type := "expense",
      recipient := "Util", category := "Utilities" } ]

/-- Concrete example: a run with amounts 30/40/50, whose sample CoV is the
rational 1/4. -/
def exampleRationalCov : List Txn :=
  [ { date := ⟨2024, 1, 10⟩, amount := -30, currency := "EUR", type := "expense",
      recipient := "Shop", category := "Groceries" },
    { date := ⟨2024, 2, 10⟩, amount := -40, currency := "EUR", type := "expense",
      recipient := "Shop", category := "Groceries" },
    { date := ⟨2024, 3, 10⟩, amount := -50, currency := "EUR", type := "expense",
      recipient := "Shop", category := "Groceries" } ]

/-- Concrete example: exact 3-month spacing with scattered days of month. -/
def exampleQuarterly : List Txn :=
  [ { date := ⟨2024, 1, 15⟩, amount := -100, currency := "EUR", type := "expense",
      recipient := "Insurer", category := "Insurance" },
    { date := ⟨2024, 4, 1⟩, amount := -100, currency := "EUR", type := "expense",
      recipient := "Insurer", category := "Insurance" },
    { date := ⟨2024, 7, 28⟩, amount := -100, currency := "EUR", type := "expense",
      recipient := "Insurer", category := "Insurance" } ]

/-- Concrete example: a second Gym history with different amounts, dates and
occurrence count than `exampleGym` but the same grouping triple. -/
def exampleGymOther : List Txn :=
  [ { date := ⟨2023, 3, 12⟩, amount := -80, currency := "EUR", type := "expense",
      recipient := "Gym", category := "Fitness" },
    { date := ⟨2023, 4, 12⟩, amount := -80, currency := "EUR", type := "expense",
      recipient := "Gym", category := "Fitness" } ]

/-- Concrete example: a detected-pattern record as handed to the prediction
generator (field values as produced for a monthly rent obligation). -/
def examplePattern : Pattern :=
  { recipient := "Landlord GmbH"
    category := "Housing"
    type := "expense"
    recurrence_type := "monthly"
    average_amount := 1200
    typical_day := 1
    currency := "EUR"
    confidence := 9 / 10
    occurrences := 4
    last_date := ⟨2024, 3, 1⟩
    historical_dates := [⟨2023, 12, 1⟩, ⟨2024, 1, 1⟩, ⟨2024, 2, 1⟩, ⟨2024, 3, 1⟩]
    historical_payments := []
    prediction_key := "k-rent" }

/-- Concrete example: the target month's real transactions for the duplicate
filter (April already contains the rent payment). -/
def exampleMonthData : MonthData :=
  { income_transactions := []
    expense_transactions := [("Housing", [{ recipient := "Landlord GmbH", amount := -1200 }])] }


/-! ## Helper lemmas -/

theorem createPatternMetadata_fields {l : List Txn} {k : GroupKey} {rt : String}
    {p : Pattern} (h : createPatternMetadata l k rt = some p) :
    p.occurrences = l.length ∧ p.recurrence_type = rt
      ∧ p.recipient = k.1 ∧ p.category = k.2.1
      ∧ p.prediction_key = generatePredictionKey k.1 k.2.1 rt
      ∧ p.historical_dates = l.map (fun t => t.date)
      ∧ p.historical_dates.getLast? = some p.last_date
      ∧ ¬ variabilityExceeds (absAmounts l)
      ∧ p.confidence = calculateConfidenceFromCovSq l.length (covSquared (absAmounts l)) := by
  cases l with
  | nil => simp [createPatternMetadata] at h
  | cons t0 rest =>
    by_cases hv : variabilityExceeds (absAmounts (t0 :: rest))
    · simp [createPatternMetadata, hv] at h
    · simp only [createPatternMetadata, hv, if_false, Option.some.injEq] at h
      subst h
      refine ⟨by simp only [], by simp only [], by simp only [], by simp only [],
        by simp only [], by simp only [], ?_, hv, by simp only []⟩
      show (List.map (fun t => t.date) (t0 :: rest)).getLast? = _
      rw [List.getLast?_map]
      rw [List.getLast?_eq_getLast _ (List.cons_ne_nil t0 rest)]
      rfl

theorem monthlyLoop_count (rest : List Txn) :
    ∀ matching lastDate count, count = matching.length →
      (monthlyLoop rest matching lastDate count).2
        = (monthlyLoop rest matching lastDate count).1.length := by
  induction rest with
  | nil => intro m d c h; simpa [monthlyLoop] using h
  | cons t ts ih =>
    intro m d c h
    simp only [monthlyLoop]
    split
    · exact ih _ _ _ (by simp [h])
    · split
      · exact ih _ _ _ (by simp)
      · split
        · split
          · simpa using h
          · exact ih _ _ _ (by simp)
        · exact ih _ _ _ h

theorem monthlyLoop_chain (rest : List Txn) :
    ∀ matching lastDate count,
      (matching.map (fun t => t.date)).getLast? = some lastDate →
      monthlyChain (matching.map (fun t => t.date)) →
      monthlyChain ((monthlyLoop rest matching lastDate count).1.map (fun t => t.date)) := by
  induction rest with
  | nil => intro m d c _ hchain; simpa [monthlyLoop] using hchain
  | cons t ts ih =>
    intro m d c hlast hchain
    simp only [monthlyLoop]
    split
    · refine ih (m ++ [t]) t.date (c + 1) ?_ ?_
      · rw [List.map_append]
        simp only [List.map_cons, List.map_nil]
        rw [List.getLast?_concat]
      · rw [List.map_append]
        simp only [List.map_cons, List.map_nil]
        unfold monthlyChain
        rw [List.chain'_append]
        refine ⟨hchain, List.chain'_singleton _, ?_⟩
        intro x hx y hy
        rw [hlast] at hx
        simp only [Option.mem_def, Option.some.injEq] at hx
        simp only [List.head?_cons, Option.mem_def, Option.some.injEq] at hy
        subst hx
        subst hy
        unfold monthlyWindowOk
        assumption
    · split
      · exact ih [t] t.date 1 rfl (List.chain'_singleton _)
      · split
        · split
          · simpa using hchain
          · exact ih [t] t.date 1 rfl (List.chain'_singleton _)
        · exact ih m d c hlast hchain

theorem detectMonthlyPattern_some {s : List Txn} {k : GroupKey} {p : Pattern}
    (h : detectMonthlyPattern s k = some p) :
    2 ≤ p.occurrences ∧ p.recurrence_type = "monthly"
      ∧ monthlyChain p.historical_dates
      ∧ p.historical_dates.getLast? = some p.last_date := by
  unfold detectMonthlyPattern at h
  split at h
  · exact absurd h (by simp)
  · cases s with
    | nil => exact absurd h (by simp)
    | cons t rest =>
      simp only at h
      rcases hml : monthlyLoop rest [t] t.date 1 with ⟨ml, cnt⟩
      rw [hml] at h
      simp only at h
      split at h
      · obtain ⟨ho, hrt, _, _, _, hd, hl, _, _⟩ := createPatternMetadata_fields h
        have hcnt := monthlyLoop_count rest [t] t.date 1 rfl
        rw [hml] at hcnt
        simp only at hcnt
        have hchain := monthlyLoop_chain rest [t] t.date 1 rfl (List.chain'_singleton _)
        rw [hml] at hchain
        simp only at hchain
        refine ⟨?_, hrt, ?_, hl⟩
        · omega
        · rw [hd]; exact hchain
      · exact absurd h (by simp)

theorem detectQuarterlyPattern_some {s : List Txn} {k : GroupKey} {p : Pattern}
    (h : detectQuarterlyPattern s k = some p) :
    3 ≤ p.occurrences ∧ p.recurrence_type = "quarterly" := by
  unfold detectQuarterlyPattern at h
  split at h
  · exact absurd h (by simp)
  · simp only at h
    split at h
    · obtain ⟨ho, hrt, _⟩ := createPatternMetadata_fields h
      refine ⟨?_, hrt⟩
      omega
    · exact absurd h (by simp)

theorem detectYearlyPattern_some {s : List Txn} {k : GroupKey} {p : Pattern}
    (h : detectYearlyPattern s k = some p) :
    2 ≤ p.occurrences ∧ p.recurrence_type = "yearly" := by
  unfold detectYearlyPattern at h
  split at h
  · exact absurd h (by simp)
  · simp only at h
    split at h
    · obtain ⟨ho, hrt, _⟩ := createPatternMetadata_fields h
      refine ⟨?_, hrt⟩
      omega
    · exact absurd h (by simp)

theorem mem_tryGroupMatchers {acc : List Pattern} {kg : GroupKey × List Txn}
    {p : Pattern} (h : p ∈ tryGroupMatchers acc kg) :
    p ∈ acc
      ∨ detectMonthlyPattern (sortByDate kg.2) kg.1 = some p
      ∨ detectQuarterlyPattern (sortByDate kg.2) kg.1 = some p
      ∨ detectYearlyPattern (sortByDate kg.2) kg.1 = some p := by
  unfold tryGroupMatchers at h
  split at h
  · exact Or.inl h
  · simp only at h
    rcases hM : detectMonthlyPattern (sortByDate kg.2) kg.1 with _ | pm
    · rw [hM] at h
      rcases hQ : detectQuarterlyPattern (sortByDate kg.2) kg.1 with _ | pq
      · rw [hQ] at h
        rcases hY : detectYearlyPattern (sortByDate kg.2) kg.1 with _ | py
        · rw [hY] at h
          exact Or.inl h
        · rw [hY] at h
          rcases List.mem_append.mp h with ha | hb
          · exact Or.inl ha
          · obtain rfl := List.mem_singleton.mp hb
            exact Or.inr (Or.inr (Or.inr rfl))
      · rw [hQ] at h
        rcases List.mem_append.mp h with ha | hb
        · exact Or.inl ha
        · obtain rfl := List.mem_singleton.mp hb
          exact Or.inr (Or.inr (Or.inl rfl))
    · rw [hM] at h
      rcases List.mem_append.mp h with ha | hb
      · exact Or.inl ha
      · obtain rfl := List.mem_singleton.mp hb
        exact Or.inr (Or.inl rfl)

theorem mem_detect_fold (groups : List (GroupKey × List Txn)) :
    ∀ (acc : List Pattern) (p : Pattern), p ∈ groups.foldl tryGroupMatchers acc →
      p ∈ acc ∨ ∃ kg, kg ∈ groups ∧
        (detectMonthlyPattern (sortByDate kg.2) kg.1 = some p
          ∨ detectQuarterlyPattern (sortByDate kg.2) kg.1 = some p
          ∨ detectYearlyPattern (sortByDate kg.2) kg.1 = some p) := by
  induction groups with
  | nil => intro acc p h; exact Or.inl h
  | cons kg gs ih =>
    intro acc p h
    rw [List.foldl_cons] at h
    rcases ih (tryGroupMatchers acc kg) p h with hacc | ⟨kg', hmem, hdet⟩
    · rcases mem_tryGroupMatchers hacc with ha | hd
      · exact Or.inl ha
      · exact Or.inr ⟨kg, List.mem_cons_self _ _, hd⟩
    · exact Or.inr ⟨kg', List.mem_cons_of_mem _ hmem, hdet⟩

theorem mem_detectRecurringPatterns {transactions : List Txn} {p : Pattern}
    (h : p ∈ detectRecurringPatterns transactions) :
    ∃ kg : GroupKey × List Txn, (detectMonthlyPattern (sortByDate kg.2) kg.1 = some p
      ∨ detectQuarterlyPattern (sortByDate kg.2) kg.1 = some p
      ∨ detectYearlyPattern (sortByDate kg.2) kg.1 = some p) := by
  unfold detectRecurringPatterns at h
  rcases mem_detect_fold _ _ _ h with ha | ⟨kg, _, hd⟩
  · exact absurd ha (List.not_mem_nil p)
  · exact ⟨kg, hd⟩

/-! ## C1: cadence-specific minimum occurrence counts -/

/-- C1: every Pattern emitted by `detect_recurring_patterns` has an occurrence
count at least the cadence-specific minimum — at least 2 for monthly, at least
3 for quarterly, at least 2 for yearly; no pattern below the minimum is ever
returned. -/
theorem C1_minimum_occurrences (transactions : List Txn) (p : Pattern)
    (h : p ∈ detectRecurringPatterns transactions) :
    (p.recurrence_type = "monthly" → 2 ≤ p.occurrences)
      ∧ (p.recurrence_type = "quarterly" → 3 ≤ p.occurrences)
      ∧ (p.recurrence_type = "yearly" → 2 ≤ p.occurrences) := by
  obtain ⟨kg, hd⟩ := mem_detectRecurringPatterns h
  rcases hd with hM | hQ | hY
  · obtain ⟨ho, hrt, _⟩ := detectMonthlyPattern_some hM
    refine ⟨fun _ => ho, fun hq => ?_, fun hy => ?_⟩
    · rw [hrt] at hq; exact absurd hq (by decide)
    · rw [hrt] at hy; exact absurd hy (by decide)
  · obtain ⟨ho, hrt⟩ := detectQuarterlyPattern_some hQ
    refine ⟨fun hm => ?_, fun _ => ho, fun hy => ?_⟩
    · rw [hrt] at hm; exact absurd hm (by decide)
    · rw [hrt] at hy; exact absurd hy (by decide)
  · obtain ⟨ho, hrt⟩ := detectYearlyPattern_some hY
    refine ⟨fun hm => ?_, fun hq => ?_, fun _ => ho⟩
    · rw [hrt] at hm; exact absurd hm (by decide)
    · rw [hrt] at hq; exact absurd hq (by decide)

unseal Rat.add Rat.mul Rat.sub Rat.inv in
/-- Witness for C1 on the concrete Gym group. -/
theorem C1_minimum_occurrences_witness :
    ∃ p, p ∈ detectRecurringPatterns exampleGym
      ∧ ((p.recurrence_type = "monthly" → 2 ≤ p.occurrences)
        ∧ (p.recurrence_type = "quarterly" → 3 ≤ p.occurrences)
        ∧ (p.recurrence_type = "yearly" → 2 ≤ p.occurrences)) := by
  have hne : detectRecurringPatterns exampleGym ≠ [] := by decide
  exact ⟨_, List.head_mem hne, C1_minimum_occurrences _ _ (List.head_mem hne)⟩

/-! ## C10: unparseable target month -/

/-- C10: when the `target_month` argument does not parse as `'YYYY-MM'` (two
dash-separated integers forming a valid calendar month),
`generate_predictions_for_month` returns the empty list; the `try`/`except`
around the parse means no exception escapes (the embedding is a total
function whose `none` parse branch is exactly that `except` path). -/
theorem C10_bad_target_month (patterns : List Pattern) (targetMonth : String)
    (dismissed : List String) (today : PyDate)
    (h : parseTargetMonth targetMonth = none) :
    generatePredictionsForMonth patterns targetMonth dismissed today = [] := by
  unfold generatePredictionsForMonth
  rw [h]

/-- Witness for C10 on the concrete month string `"2024-13"` (month 13 is not
a valid calendar month, so `datetime` would raise). -/
theorem C10_bad_target_month_witness :
    generatePredictionsForMonth [examplePattern] "2024-13" [] ⟨2024, 4, 1⟩ = [] :=
  C10_bad_target_month [examplePattern] "2024-13" [] ⟨2024, 4, 1⟩ (by decide)

/-! ## C8: dismissed keys are skipped unconditionally -/

theorem patternPrediction_some {p : Pattern} {y m : Nat} {today : PyDate}
    {q : Prediction} (h : patternPrediction p y m today = some q) :
    q = mkPrediction p y m := by
  unfold patternPrediction at h
  simp only [] at h
  split_ifs at h <;> exact (Option.some.inj h).symm

theorem mkPrediction_key (p : Pattern) (y m : Nat) :
    (mkPrediction p y m).prediction_key = p.prediction_key := by
  simp only [mkPrediction]

theorem generatePredictions_fold_not_dismissed
    (patterns : List Pattern) (ym : Nat × Nat) (dismissed : List String)
    (today : PyDate) :
    ∀ (acc : List Prediction), (∀ q ∈ acc, q.prediction_key ∉ dismissed) →
      ∀ pr ∈ patterns.foldl (fun predictions p =>
          if p.prediction_key ∈ dismissed then predictions
          else
            match patternPrediction p ym.1 ym.2 today with
            | some pr => predictions ++ [pr]
            | none => predictions) acc,
        pr.prediction_key ∉ dismissed := by
  induction patterns with
  | nil => intro acc hacc pr h; exact hacc pr h
  | cons p ps ih =>
    intro acc hacc pr h
    rw [List.foldl_cons] at h
    by_cases hd : p.prediction_key ∈ dismissed
    · rw [if_pos hd] at h
      exact ih acc hacc pr h
    · rw [if_neg hd] at h
      rcases hp : patternPrediction p ym.1 ym.2 today with _ | q
      · rw [hp] at h
        exact ih acc hacc pr h
      · rw [hp] at h
        refine ih (acc ++ [q]) ?_ pr h
        intro q' hq'
        rcases List.mem_append.mp hq' with ha | hb
        · exact hacc q' ha
        · rw [List.mem_singleton.mp hb]
          obtain rfl := patternPrediction_some hp
          rw [mkPrediction_key]
          exact hd

/-- C8: a pattern whose `prediction_key` is in the dismissed set contributes
no prediction: every prediction produced by `generate_predictions_for_month`
carries a key outside the dismissed set, regardless of due-ness. -/
theorem C8_dismissal_suppression (patterns : List Pattern) (targetMonth : String)
    (dismissed : List String) (today : PyDate) (pr : Prediction)
    (h : pr ∈ generatePredictionsForMonth patterns targetMonth dismissed today) :
    pr.prediction_key ∉ dismissed := by
  unfold generatePredictionsForMonth at h
  rcases hP : parseTargetMonth targetMonth with _ | ym
  · rw [hP] at h
    exact absurd h (List.not_mem_nil pr)
  · rw [hP] at h
    exact generatePredictions_fold_not_dismissed patterns ym dismissed today []
      (by intro q hq; exact absurd hq (List.not_mem_nil q)) pr h

unseal Rat.add Rat.mul Rat.sub Rat.inv in
/-- Witness for C8: the rent pattern, otherwise due in April 2024, is
generated (so its key is outside the dismissed set) while dismissing its key
yields no predictions at all. -/
theorem C8_dismissal_suppression_witness :
    (∀ pr ∈ generatePredictionsForMonth [examplePattern] "2024-04"
        ["other-key"] ⟨2024, 4, 1⟩, pr.prediction_key ∉ ["other-key"])
      ∧ generatePredictionsForMonth [examplePattern] "2024-04"
          ["k-rent"] ⟨2024, 4, 1⟩ = [] := by
  refine ⟨fun pr h => C8_dismissal_suppression [examplePattern] "2024-04"
    ["other-key"] ⟨2024, 4, 1⟩ pr h, by decide⟩

/-! ## C4: monthly lapse suppression -/

theorem patternPrediction_monthly_lapsed {p : Pattern} {y m : Nat}
    {today : PyDate} (hrt : p.recurrence_type = "monthly")
    (hover : 7 < rataDie today - rataDie (expectedNextMonthDate p.last_date)) :
    patternPrediction p y m today = none := by
  unfold patternPrediction
  rw [if_pos hrt]
  simp only []
  rw [if_pos hover]

theorem patternPrediction_monthly_due {p : Pattern} {y m : Nat}
    {today : PyDate} (hrt : p.recurrence_type = "monthly")
    (hdue : rataDie today - rataDie (expectedNextMonthDate p.last_date) ≤ 7) :
    patternPrediction p y m today = some (mkPrediction p y m) := by
  unfold patternPrediction
  rw [if_pos hrt]
  simp only []
  rw [if_neg (not_lt.mpr hdue)]

/-- C4: for a monthly pattern, the expected next date is one month after
`lastDate` with the day-of-month clamped to the month end; when `today` is
more than 7 days past it, no prediction is generated for any target month,
and otherwise the pattern is due and yields exactly one prediction. -/
theorem C4_monthly_lapse (p : Pattern) (targetMonth : String) (ym : Nat × Nat)
    (dismissed : List String) (today : PyDate)
    (hrt : p.recurrence_type = "monthly")
    (hnd : p.prediction_key ∉ dismissed)
    (hparse : parseTargetMonth targetMonth = some ym) :
    (7 < rataDie today - rataDie (expectedNextMonthDate p.last_date) →
        generatePredictionsForMonth [p] targetMonth dismissed today = [])
      ∧ (rataDie today - rataDie (expectedNextMonthDate p.last_date) ≤ 7 →
        generatePredictionsForMonth [p] targetMonth dismissed today
          = [mkPrediction p ym.1 ym.2]) := by
  unfold generatePredictionsForMonth
  rw [hparse]
  constructor
  · intro hover
    simp only [List.foldl_cons, List.foldl_nil]
    rw [if_neg hnd, patternPrediction_monthly_lapsed hrt hover]
  · intro hdue
    simp only [List.foldl_cons, List.foldl_nil]
    rw [if_neg hnd, patternPrediction_monthly_due hrt hdue]
    simp only [List.nil_append]

unseal Rat.add Rat.mul Rat.sub Rat.inv in
/-- Witness for C4, matching the spec's lapse scenario: `lastDate = 2024-03-01`
lapses for a simulated "today" of 2024-05-20, and is due for "today" of
2024-04-03. -/
theorem C4_monthly_lapse_witness :
    (generatePredictionsForMonth [examplePattern] "2024-04" [] ⟨2024, 5, 20⟩ = []
      ∧ generatePredictionsForMonth [examplePattern] "2024-04" [] ⟨2024, 4, 3⟩
          = [mkPrediction examplePattern 2024 4])
      ∧ 7 < rataDie ⟨2024, 5, 20⟩ - rataDie (expectedNextMonthDate ⟨2024, 3, 1⟩)
      ∧ rataDie ⟨2024, 4, 3⟩ - rataDie (expectedNextMonthDate ⟨2024, 3, 1⟩) ≤ 7 := by
  refine ⟨⟨?_, ?_⟩, by decide, by decide⟩
  · exact (C4_monthly_lapse examplePattern "2024-04" (2024, 4) [] ⟨2024, 5, 20⟩
      rfl (by decide) (by decide)).1 (by decide)
  · exact (C4_monthly_lapse examplePattern "2024-04" (2024, 4) [] ⟨2024, 4, 3⟩
      rfl (by decide) (by decide)).2 (by decide)

/-! ## C7: prediction keys depend only on (recipient, category, recurrenceType) -/

/-- C7: the `predictionKey` is a deterministic function of
`(recipient, category, recurrenceType)` alone: any two patterns created from
arbitrary runs (different amounts, dates and occurrence counts) that agree on
the triple get the same key. -/
theorem C7_key_stability (l1 l2 : List Txn) (k1 k2 : GroupKey) (rt1 rt2 : String)
    (p1 p2 : Pattern)
    (h1 : createPatternMetadata l1 k1 rt1 = some p1)
    (h2 : createPatternMetadata l2 k2 rt2 = some p2)
    (hr : p1.recipient = p2.recipient) (hc : p1.category = p2.category)
    (ht : p1.recurrence_type = p2.recurrence_type) :
    p1.prediction_key = p2.prediction_key := by
  obtain ⟨_, hrt1, hrec1, hcat1, hkey1, _⟩ := createPatternMetadata_fields h1
  obtain ⟨_, hrt2, hrec2, hcat2, hkey2, _⟩ := createPatternMetadata_fields h2
  rw [hkey1, hkey2, ← hrec1, ← hrec2, ← hcat1, ← hcat2, ← hrt1, ← hrt2,
    hr, hc, ht]

unseal Rat.add Rat.mul Rat.sub Rat.inv in
/-- Witness for C7: two Gym runs with different amounts, dates and occurrence
counts produce the same prediction key. -/
theorem C7_key_stability_witness :
    ∃ p1 p2, createPatternMetadata exampleGym ("Gym", "Fitness", "expense") "monthly" = some p1
      ∧ createPatternMetadata exampleGymOther ("Gym", "Fitness", "expense") "monthly" = some p2
      ∧ p1.prediction_key = p2.prediction_key := by
  have e1 : (createPatternMetadata exampleGym ("Gym", "Fitness", "expense") "monthly").isSome
      = true := by decide
  have e2 : (createPatternMetadata exampleGymOther ("Gym", "Fitness", "expense") "monthly").isSome
      = true := by decide
  obtain ⟨p1, h1⟩ := Option.isSome_iff_exists.mp e1
  obtain ⟨p2, h2⟩ := Option.isSome_iff_exists.mp e2
  obtain ⟨_, hrt1, hrec1, hcat1, _⟩ := createPatternMetadata_fields h1
  obtain ⟨_, hrt2, hrec2, hcat2, _⟩ := createPatternMetadata_fields h2
  exact ⟨p1, p2, h1, h2, C7_key_stability exampleGym exampleGymOther _ _
    "monthly" "monthly" p1 p2 h1 h2 (by rw [hrec1, hrec2]) (by rw [hcat1, hcat2])
    (by rw [hrt1, hrt2])⟩

/-! ## C2: the variability gate uses the sample standard deviation -/

theorem absAmounts_nonneg (l : List Txn) : ∀ x ∈ absAmounts l, 0 ≤ x := by
  intro x hx
  obtain ⟨t, _, rfl⟩ := List.mem_map.mp hx
  exact abs_nonneg t.amount

theorem list_sum_zero_of_nonneg {xs : List ℚ} (hnn : ∀ x ∈ xs, 0 ≤ x)
    (hs : xs.sum = 0) : ∀ x ∈ xs, x = 0 := by
  induction xs with
  | nil => intro x hx; exact absurd hx (List.not_mem_nil x)
  | cons a as ih =>
    have ha : 0 ≤ a := hnn a (List.mem_cons_self a as)
    have has : 0 ≤ as.sum := List.sum_nonneg (fun x hx => hnn x (List.mem_cons_of_mem a hx))
    rw [List.sum_cons] at hs
    have ha0 : a = 0 := by linarith
    have hs0 : as.sum = 0 := by linarith
    intro x hx
    rcases List.mem_cons.mp hx with rfl | hmem
    · exact ha0
    · exact ih (fun y hy => hnn y (List.mem_cons_of_mem a hy)) hs0 x hmem

theorem meanQ_nonneg {xs : List ℚ} (hnn : ∀ x ∈ xs, 0 ≤ x) : 0 ≤ meanQ xs := by
  unfold meanQ
  exact div_nonneg (List.sum_nonneg hnn) (Nat.cast_nonneg xs.length)

theorem sampleVariance_zero_of_mean_zero {xs : List ℚ} (hnn : ∀ x ∈ xs, 0 ≤ x)
    (hm : meanQ xs = 0) : sampleVariance xs = 0 := by
  unfold sampleVariance
  rcases Nat.eq_zero_or_pos xs.length with hlen | hlen
  · rw [List.length_eq_zero.mp hlen]
    simp
  · have hsum : xs.sum = 0 := by
      unfold meanQ at hm
      rcases div_eq_zero_iff.mp hm with h | h
      · exact h
      · exact absurd h (by positivity)
    have hzero := list_sum_zero_of_nonneg hnn hsum
    have : (xs.map (fun x => (x - meanQ xs) ^ 2)).sum = 0 := by
      apply List.sum_eq_zero
      intro y hy
      obtain ⟨x, hx, rfl⟩ := List.mem_map.mp hy
      rw [hzero x hx, hm]
      norm_num
    rw [this, zero_div]

/-- C2, amended to the source's `statistics.stdev`: the scorer's variability
gate compares the sample (Bessel `n - 1`) standard deviation over all matched
magnitudes against `0.30 * mean` (stated with both sides squared, which is
equivalent since both are nonnegative): every emitted Pattern satisfies
`sampleVariance ≤ (0.3 * mean)^2`, i.e. sample CoV ≤ 0.30, and whenever the
sample CoV strictly exceeds 0.30 the run is rejected entirely (`none`). -/
theorem C2_variability_gate (l : List Txn) (k : GroupKey) (rt : String) :
    (∀ p, createPatternMetadata l k rt = some p →
        sampleVariance (absAmounts l) ≤ (3 / 10 * meanQ (absAmounts l)) ^ 2)
      ∧ (variabilityExceeds (absAmounts l) → createPatternMetadata l k rt = none) := by
  constructor
  · intro p hp
    obtain ⟨_, _, _, _, _, _, _, hv, _⟩ := createPatternMetadata_fields hp
    unfold variabilityExceeds at hv
    push_neg at hv
    by_cases hlen : 1 < (absAmounts l).length
    · rcases lt_or_le 0 (meanQ (absAmounts l)) with hm | hm
      · exact hv hlen hm
      · have hm0 : meanQ (absAmounts l) = 0 :=
          le_antisymm hm (meanQ_nonneg (absAmounts_nonneg l))
        rw [sampleVariance_zero_of_mean_zero (absAmounts_nonneg l) hm0]
        exact sq_nonneg _
    · push_neg at hlen
      interval_cases h : (absAmounts l).length
      · have : absAmounts l = [] := List.length_eq_zero.mp h
        rw [this]
        unfold sampleVariance
        simp
        positivity
      · obtain ⟨x, hx⟩ := List.length_eq_one.mp h
        rw [hx]
        unfold sampleVariance meanQ
        simp
        positivity
  · intro hexceeds
    cases l with
    | nil => rfl
    | cons t0 rest => simp [createPatternMetadata, hexceeds]

unseal Rat.add Rat.mul Rat.sub Rat.inv in
/-- Counterexample to C2 as stated: on the monthly-spaced run with amounts 100
and 170, the population CoV is 35/135 ≈ 0.259 ≤ 0.30 (stated via squares), so
a scorer gating on the population standard deviation keeps the pattern — the
spec-modelled population variant emits it — yet the source rejects it
(`statistics.stdev` gives sample CoV ≈ 0.367 > 0.30): the computed CoV is not
the population one. -/
theorem C2_population_cov_counterexample :
    popVariance (absAmounts exampleVariable)
        ≤ (3 / 10 * meanQ (absAmounts exampleVariable)) ^ 2
      ∧ createPatternMetadata exampleVariable ("Util", "Utilities", "expense") "monthly" = none
      ∧ (createPatternMetadataPopModel exampleVariable
          ("Util", "Utilities", "expense") "monthly").isSome = true
      ∧ detectMonthlyPattern exampleVariable ("Util", "Utilities", "expense") = none := by
  exact ⟨by decide, by decide, by decide, by decide⟩

unseal Rat.add Rat.mul Rat.sub Rat.inv in
/-- Witness for the amended C2: the 30/40/50 run (sample CoV = 1/4) is emitted
and satisfies the squared bound, and the 100/170 run is rejected. -/
theorem C2_variability_gate_witness :
    sampleVariance (absAmounts exampleRationalCov)
        ≤ (3 / 10 * meanQ (absAmounts exampleRationalCov)) ^ 2
      ∧ createPatternMetadata exampleVariable ("Util", "Utilities", "expense") "monthly" = none := by
  constructor
  · obtain ⟨p, hp⟩ := Option.isSome_iff_exists.mp
      (show (createPatternMetadata exampleRationalCov
        ("Shop", "Groceries", "expense") "monthly").isSome = true by decide)
    exact (C2_variability_gate exampleRationalCov ("Shop", "Groceries", "expense") "monthly").1 p hp
  · exact (C2_variability_gate exampleVariable ("Util", "Utilities", "expense") "monthly").2 (by decide)

/-! ## C3: the monthly matcher's run is the earliest qualifying run, not the
trailing one -/

unseal Rat.add Rat.mul Rat.sub Rat.inv in
/-- Counterexample to C3 as stated: on the group with occurrences on
2024-01-05, 2024-02-05, 2024-05-05, 2024-06-05 and 2024-07-05 the matcher
returns the two-occurrence Jan–Feb run (`last_date = 2024-02-05`), although
the trailing run May–Jun–Jul is monthly-cadence-consistent, is longer (3), and
ends at the group's most recent occurrence 2024-07-05: the returned run is
neither the longest trailing contiguous run nor does it end at the most recent
cadence-continuing occurrence. -/
theorem C3_trailing_run_counterexample :
    (detectMonthlyPattern exampleGapGroup ("Gym", "Fitness", "expense")).map
        (fun p => (p.occurrences, p.last_date)) = some (2, ⟨2024, 2, 5⟩)
      ∧ monthlyChain [⟨2024, 5, 5⟩, ⟨2024, 6, 5⟩, ⟨2024, 7, 5⟩]
      ∧ exampleGapGroup.map (fun t => t.date)
          = [⟨2024, 1, 5⟩, ⟨2024, 2, 5⟩, ⟨2024, 5, 5⟩, ⟨2024, 6, 5⟩, ⟨2024, 7, 5⟩] := by
  exact ⟨by decide, by decide, by decide⟩

/-- C3, amended: when the monthly matcher returns a Pattern, its matched
occurrences form a contiguous run consistent with the monthly cadence (each
consecutive occurrence within ±3 days of the expected date one calendar month
after its predecessor, day-of-month clamped to the month end), the run has at
least 2 occurrences, and it ends at its own most recent occurrence
(`lastDate`); the run is not necessarily the longest trailing contiguous run
and need not end at the most recent occurrence of the group that continues
the cadence (see the counterexample: a gap of more than one calendar month
after a run that already meets the minimum stops the scan and returns that
earlier run). -/
theorem C3_monthly_run_chain (s : List Txn) (k : GroupKey) (p : Pattern)
    (h : detectMonthlyPattern s k = some p) :
    monthlyChain p.historical_dates
      ∧ p.historical_dates.getLast? = some p.last_date
      ∧ 2 ≤ p.occurrences := by
  obtain ⟨ho, _, hchain, hlast⟩ := detectMonthlyPattern_some h
  exact ⟨hchain, hlast, ho⟩

unseal Rat.add Rat.mul Rat.sub Rat.inv in
/-- Witness for the amended C3 on the concrete Gym group. -/
theorem C3_monthly_run_chain_witness :
    ∃ p, detectMonthlyPattern exampleGym ("Gym", "Fitness", "expense") = some p
      ∧ (monthlyChain p.historical_dates
        ∧ p.historical_dates.getLast? = some p.last_date
        ∧ 2 ≤ p.occurrences) := by
  obtain ⟨p, hp⟩ := Option.isSome_iff_exists.mp
    (show (detectMonthlyPattern exampleGym ("Gym", "Fitness", "expense")).isSome = true by decide)
  exact ⟨p, hp, C3_monthly_run_chain exampleGym ("Gym", "Fitness", "expense") p hp⟩

/-! ## C6: the quarterly matcher's pair scan -/

theorem quarterlyLoop_eq_spec : ∀ (l run : List Txn),
    quarterlyLoop run l = specQuarterlyPairScan (l.zip l.tail) run := by
  intro l
  induction l with
  | nil => intro run; rfl
  | cons t tail ih =>
    intro run
    cases tail with
    | nil => rfl
    | cons u rest =>
      show quarterlyLoop run (t :: u :: rest)
        = specQuarterlyPairScan ((t :: u :: rest).zip (u :: rest)) run
      rw [List.zip_cons_cons]
      unfold quarterlyLoop specQuarterlyPairScan
      simp only []
      by_cases h3 : monthsDiff t.date u.date = 3
      · rw [if_pos h3, if_pos h3]
        rw [ih (if run.isEmpty then [t, u] else run ++ [u])]
        simp only [List.tail_cons]
      · rw [if_neg h3, if_neg h3]
        by_cases hlen : 3 ≤ run.length
        · rw [if_pos hlen, if_pos hlen]
        · rw [if_neg hlen, if_neg hlen]
          rw [ih []]
          simp only [List.tail_cons]

theorem quarterlyLoop_chain : ∀ (l run : List Txn),
    (run = [] ∨ ∃ t rest, l = t :: rest ∧ run.getLast? = some t) →
    List.Chain' quarterlyStep (run.map (fun t => t.date)) →
    List.Chain' quarterlyStep ((quarterlyLoop run l).map (fun t => t.date)) := by
  intro l
  induction l with
  | nil => intro run _ hchain; exact hchain
  | cons t tail ih =>
    intro run hinv hchain
    cases tail with
    | nil => exact hchain
    | cons u rest =>
      show List.Chain' quarterlyStep ((quarterlyLoop run (t :: u :: rest)).map (fun t => t.date))
      unfold quarterlyLoop
      by_cases h3 : monthsDiff t.date u.date = 3
      · rw [if_pos h3]
        by_cases hemp : run.isEmpty
        · rw [if_pos hemp]
          refine ih [t, u] (Or.inr ⟨u, rest, rfl, rfl⟩) ?_
          simp only [List.map_cons, List.map_nil]
          exact List.chain'_pair.mpr h3
        · rw [if_neg hemp]
          refine ih (run ++ [u]) (Or.inr ⟨u, rest, rfl, List.getLast?_concat run⟩) ?_
          rw [List.map_append]
          simp only [List.map_cons, List.map_nil]
          rw [List.chain'_append]
          refine ⟨hchain, List.chain'_singleton _, ?_⟩
          intro x hx y hy
          rcases hinv with hrun | ⟨t', rest', hl, hlast⟩
          · rw [hrun] at hemp
            exact absurd rfl hemp
          · obtain rfl : t' = t := by
              injection hl with h1 _
              exact h1.symm
            rw [List.getLast?_map, hlast] at hx
            simp only [Option.mem_def, Option.map_some', Option.some.injEq] at hx
            simp only [List.head?_cons, Option.mem_def, Option.some.injEq] at hy
            rw [← hx, ← hy]
            exact h3
      · rw [if_neg h3]
        by_cases hlen : 3 ≤ run.length
        · rw [if_pos hlen]
          exact hchain
        · rw [if_neg hlen]
          exact ih [] (Or.inl rfl) List.chain'_nil

/-- C6: the quarterly matcher admits a consecutive pair into the run exactly
when the calendar-month difference is 3, with no day-of-month tolerance, and a
non-qualifying pair resets the run unless it already has at least 3
occurrences, in which case scanning stops and the run is accepted early: the
matcher equals the spec-worded pair scan (`specQuarterlyRun`), and every
emitted pattern is an exact-3-month chain of at least 3 occurrences
(regardless of days of month). -/
theorem C6_quarterly_matcher (s : List Txn) (k : GroupKey) :
    detectQuarterlyPattern s k
        = (if s.length < 3 then none
           else if 3 ≤ (specQuarterlyRun s).length then
             createPatternMetadata (specQuarterlyRun s) k "quarterly"
           else none)
      ∧ (∀ p, detectQuarterlyPattern s k = some p →
          List.Chain' quarterlyStep p.historical_dates ∧ 3 ≤ p.occurrences) := by
  constructor
  · unfold detectQuarterlyPattern specQuarterlyRun
    rw [quarterlyLoop_eq_spec]
  · intro p hp
    unfold detectQuarterlyPattern at hp
    split at hp
    · exact absurd hp (by simp)
    · simp only at hp
      split at hp
      · rename_i hlen3
        obtain ⟨ho, _, _, _, _, hd, _⟩ := createPatternMetadata_fields hp
        constructor
        · rw [hd]
          exact quarterlyLoop_chain s [] (Or.inl rfl) List.chain'_nil
        · rw [ho]
          exact hlen3
      · exact absurd hp (by simp)

unseal Rat.add Rat.mul Rat.sub Rat.inv in
/-- Witness for C6: the Insurer group (days 15, 1 and 28 of months exactly 3
apart) is matched quarterly with all three scattered days of month. -/
theorem C6_quarterly_matcher_witness :
    (∃ p, detectQuarterlyPattern exampleQuarterly ("Insurer", "Insurance", "expense") = some p
      ∧ List.Chain' quarterlyStep p.historical_dates ∧ 3 ≤ p.occurrences)
      ∧ (detectQuarterlyPattern exampleQuarterly ("Insurer", "Insurance", "expense")).map
          (fun q => q.historical_dates)
        = some [⟨2024, 1, 15⟩, ⟨2024, 4, 1⟩, ⟨2024, 7, 28⟩] := by
  refine ⟨?_, by decide⟩
  obtain ⟨p, hp⟩ := Option.isSome_iff_exists.mp
    (show (detectQuarterlyPattern exampleQuarterly
      ("Insurer", "Insurance", "expense")).isSome = true by decide)
  exact ⟨p, hp, (C6_quarterly_matcher exampleQuarterly
    ("Insurer", "Insurance", "expense")).2 p hp⟩

/-! ## C9: caller-side duplicate suppression -/

theorem isDuplicate_iff (md : MonthData) (pr : Prediction)
    (hpos : 0 < |pr.amount|) :
    isDuplicatePrediction md pr = true
      ↔ ∃ txn ∈ existingTransactionsFor md pr,
          txn.recipient = pr.recipient
            ∧ abs (|txn.amount| - |pr.amount|) < |pr.amount| / 10 := by
  unfold isDuplicatePrediction
  simp only []
  rw [List.any_eq_true]
  constructor
  · rintro ⟨t, ht, hcond⟩
    rw [decide_eq_true_iff] at hcond
    obtain ⟨hr, hlt⟩ := hcond
    rw [if_pos hpos] at hlt
    refine ⟨t, ht, hr, ?_⟩
    rw [div_lt_iff₀ hpos] at hlt
    linarith
  · rintro ⟨t, ht, hr, hlt⟩
    refine ⟨t, ht, ?_⟩
    rw [decide_eq_true_iff]
    refine ⟨hr, ?_⟩
    rw [if_pos hpos, div_lt_iff₀ hpos]
    linarith

/-- C9: a generated prediction with a positive predicted magnitude survives the
caller-side duplicate filter exactly when the target month has no real
transaction in its category (on its income/expense side) with the same
recipient string and an absolute amount within 10% of the predicted absolute
amount (relative difference strictly below 1/10); surviving predictions are
passed through unchanged (the filter is `List.filter`). -/
theorem C9_duplicate_filter (md : MonthData) (predictions : List Prediction)
    (pr : Prediction) (hpos : 0 < |pr.amount|) :
    pr ∈ filterPredictions md predictions
      ↔ pr ∈ predictions
        ∧ ¬ ∃ txn ∈ existingTransactionsFor md pr,
            txn.recipient = pr.recipient
              ∧ abs (|txn.amount| - |pr.amount|) < |pr.amount| / 10 := by
  unfold filterPredictions
  rw [List.mem_filter]
  refine and_congr_right (fun _ => ?_)
  rw [Bool.not_eq_true', ← Bool.not_eq_true]
  exact not_congr (isDuplicate_iff md pr hpos)

unseal Rat.add Rat.mul Rat.sub Rat.inv in
/-- Witness for C9, the spec's rent scenario: April already holds the real
"Landlord GmbH, −1200" expense, so the matching prediction is filtered out. -/
theorem C9_duplicate_filter_witness :
    (0 < |(mkPrediction examplePattern 2024 4).amount|)
      ∧ (mkPrediction examplePattern 2024 4
            ∈ filterPredictions exampleMonthData [mkPrediction examplePattern 2024 4]
          ↔ mkPrediction examplePattern 2024 4 ∈ [mkPrediction examplePattern 2024 4]
            ∧ ¬ ∃ txn ∈ existingTransactionsFor exampleMonthData
                  (mkPrediction examplePattern 2024 4),
                txn.recipient = (mkPrediction examplePattern 2024 4).recipient
                  ∧ abs (|txn.amount| - |(mkPrediction examplePattern 2024 4).amount|)
                      < |(mkPrediction examplePattern 2024 4).amount| / 10)
      ∧ filterPredictions exampleMonthData [mkPrediction examplePattern 2024 4] = [] := by
  refine ⟨by decide, ?_, by decide⟩
  exact C9_duplicate_filter exampleMonthData [mkPrediction examplePattern 2024 4]
    (mkPrediction examplePattern 2024 4) (by decide)

/-! ## C5: the confidence formula -/

theorem sq_lt_sq_iff_nonneg {x y : ℚ} (hx : 0 ≤ x) (hy : 0 ≤ y) :
    x ^ 2 < y ^ 2 ↔ x < y := by
  constructor
  · intro h
    by_contra hle
    push_neg at hle
    exact absurd h (not_lt.mpr (pow_le_pow_left₀ hy hle 2))
  · intro h
    exact pow_lt_pow_left₀ h hx (by norm_num)

theorem cmpLinSqrt_sq {a b v : ℚ} (t : ℚ) (hb : 0 ≤ b) (hv : 0 ≤ v) :
    cmpLinSqrt a b (v ^ 2) t
      = if a - b * v < t then Ordering.lt
        else if t < a - b * v then Ordering.gt
        else Ordering.eq := by
  unfold cmpLinSqrt
  simp only []
  have hbv : 0 ≤ b * v := mul_nonneg hb hv
  have hsq : b ^ 2 * v ^ 2 = (b * v) ^ 2 := by ring
  by_cases hd : a - t < 0
  · rw [if_pos hd, if_pos (by linarith)]
  · push_neg at hd
    rw [if_neg (not_lt.mpr hd)]
    by_cases h1 : (a - t) ^ 2 < b ^ 2 * v ^ 2
    · have : a - t < b * v := by
        rw [hsq] at h1
        exact (sq_lt_sq_iff_nonneg hd hbv).mp h1
      rw [if_pos h1, if_pos (by linarith)]
    · push_neg at h1
      rw [if_neg (not_lt.mpr h1)]
      by_cases h2 : b ^ 2 * v ^ 2 < (a - t) ^ 2
      · have : b * v < a - t := by
          rw [hsq] at h2
          exact (sq_lt_sq_iff_nonneg hbv hd).mp h2
        rw [if_pos h2, if_neg (by linarith), if_pos (by linarith)]
      · push_neg at h2
        have heq : a - t = b * v := by
          have h3 : (a - t) ^ 2 = (b * v) ^ 2 := by
            rw [← hsq]
            exact le_antisymm h2 h1
          nlinarith [sq_nonneg (a - t - b * v), sq_nonneg (a - t + b * v)]
        rw [if_neg (not_lt.mpr h2), if_neg (by linarith), if_neg (by linarith)]

theorem range_foldl_floor (x : ℚ) (hx : 0 ≤ x) :
    ∀ n : Nat, (List.range (n + 1)).foldl
        (fun (acc k : Nat) => if (k : ℚ) ≤ x then k else acc) 0
      = min (⌊x⌋.toNat) n := by
  intro n
  induction n with
  | zero =>
    have h1 : List.range 1 = [0] := rfl
    rw [h1, List.foldl_cons, List.foldl_nil]
    rw [if_pos (show ((0 : Nat) : ℚ) ≤ x by exact_mod_cast hx)]
    omega
  | succ n ih =>
    rw [List.range_succ, List.foldl_append, ih, List.foldl_cons, List.foldl_nil]
    by_cases h : ((n + 1 : Nat) : ℚ) ≤ x
    · rw [if_pos h]
      have : (n + 1 : ℤ) ≤ ⌊x⌋ := by
        rw [Int.le_floor]
        exact_mod_cast h
      omega
    · rw [if_neg h]
      push_neg at h
      have : ⌊x⌋ < (n + 1 : ℤ) := by
        rw [Int.floor_lt]
        exact_mod_cast h
      omega

theorem floor100Conf_sq {a b v : ℚ} (hb : 0 ≤ b) (hv : 0 ≤ v)
    (h0 : 0 ≤ a - b * v) (h100 : a - b * v ≤ 100) :
    floor100Conf a b (v ^ 2) = (⌊a - b * v⌋).toNat := by
  unfold floor100Conf
  have hcong : ∀ (m : Nat) (acc : Nat),
      (List.range m).foldl
          (fun (acc k : Nat) => if cmpLinSqrt a b (v ^ 2) (k : ℚ) ≠ Ordering.lt then k else acc) acc
        = (List.range m).foldl
          (fun (acc k : Nat) => if (k : ℚ) ≤ a - b * v then k else acc) acc := by
    intro m
    induction m with
    | zero => intro acc; rfl
    | succ m ih =>
      intro acc
      rw [List.range_succ, List.foldl_append, List.foldl_append, ih,
        List.foldl_cons, List.foldl_nil, List.foldl_cons, List.foldl_nil]
      rw [cmpLinSqrt_sq (m : ℚ) hb hv]
      by_cases hle : (m : ℚ) ≤ a - b * v
      · rw [if_neg (not_lt.mpr hle), if_pos hle]
        by_cases heq : (m : ℚ) < a - b * v
        · rw [if_pos heq]
          simp
        · rw [if_neg heq]
          simp
      · push_neg at hle
        rw [if_pos hle, if_neg (not_le.mpr hle)]
        simp
  rw [hcong 101 0]
  have hfold := range_foldl_floor (a - b * v) h0 100
  rw [hfold]
  have hle : ⌊a - b * v⌋ ≤ (100 : ℤ) := by
    have : ((⌊a - b * v⌋ : ℤ) : ℚ) ≤ a - b * v := Int.floor_le _
    by_contra hgt
    push_neg at hgt
    have h101 : ((101 : ℤ) : ℚ) ≤ ((⌊a - b * v⌋ : ℤ) : ℚ) := by exact_mod_cast hgt
    push_cast at h101
    linarith
  omega

theorem roundMachinery_eq (aq v : ℚ) (hv : 0 ≤ v)
    (h0 : 0 ≤ aq - 40 * v) (h100 : aq - 40 * v ≤ 100) :
    ((Nat.cast (match cmpLinSqrt aq 40 (v ^ 2) ((floor100Conf aq 40 (v ^ 2) : ℚ) + 1 / 2) with
      | Ordering.gt => floor100Conf aq 40 (v ^ 2) + 1
      | Ordering.lt => floor100Conf aq 40 (v ^ 2)
      | Ordering.eq => if floor100Conf aq 40 (v ^ 2) % 2 = 0 then floor100Conf aq 40 (v ^ 2)
          else floor100Conf aq 40 (v ^ 2) + 1) : ℚ)) / 100
    = ((roundHalfEven (aq - 40 * v) : ℤ) : ℚ) / 100 := by
  have hfl : floor100Conf aq 40 (v ^ 2) = (⌊aq - 40 * v⌋).toNat :=
    floor100Conf_sq (by norm_num) hv h0 h100
  have hflnn : ((⌊aq - 40 * v⌋).toNat : ℤ) = ⌊aq - 40 * v⌋ :=
    Int.toNat_of_nonneg (Int.floor_nonneg.mpr h0)
  have hflq : (((⌊aq - 40 * v⌋).toNat : ℕ) : ℚ) = ((⌊aq - 40 * v⌋ : ℤ) : ℚ) := by
    exact_mod_cast hflnn
  rw [hfl]
  rw [cmpLinSqrt_sq ((((⌊aq - 40 * v⌋).toNat : ℕ) : ℚ) + 1 / 2) (by norm_num) hv]
  unfold roundHalfEven
  simp only []
  by_cases hlt : aq - 40 * v < (((⌊aq - 40 * v⌋).toNat : ℕ) : ℚ) + 1 / 2
  · rw [if_pos hlt]
    simp only []
    rw [if_pos (show aq - 40 * v - ((⌊aq - 40 * v⌋ : ℤ) : ℚ) < 1 / 2 by
      rw [hflq] at hlt; linarith)]
    rw [hflq]
  · rw [if_neg hlt]
    push_neg at hlt
    by_cases hgt : (((⌊aq - 40 * v⌋).toNat : ℕ) : ℚ) + 1 / 2 < aq - 40 * v
    · rw [if_pos hgt]
      simp only []
      rw [if_neg (show ¬ (aq - 40 * v - ((⌊aq - 40 * v⌋ : ℤ) : ℚ) < 1 / 2) by
        rw [hflq] at hgt; push_neg; linarith)]
      rw [if_pos (show (1 : ℚ) / 2 < aq - 40 * v - ((⌊aq - 40 * v⌋ : ℤ) : ℚ) by
        rw [hflq] at hgt; linarith)]
      push_cast
      rw [hflq]
    · rw [if_neg hgt]
      simp only []
      push_neg at hgt
      have heq : aq - 40 * v - ((⌊aq - 40 * v⌋ : ℤ) : ℚ) = 1 / 2 := by
        rw [hflq] at hlt hgt
        linarith [le_antisymm hgt hlt]
      rw [if_neg (show ¬ (aq - 40 * v - ((⌊aq - 40 * v⌋ : ℤ) : ℚ) < 1 / 2) by
        rw [heq]; norm_num)]
      rw [if_neg (show ¬ ((1 : ℚ) / 2 < aq - 40 * v - ((⌊aq - 40 * v⌋ : ℤ) : ℚ)) by
        rw [heq]; norm_num)]
      by_cases hpar : (⌊aq - 40 * v⌋).toNat % 2 = 0
      · rw [if_pos hpar]
        rw [if_pos (by omega)]
        rw [hflq]
      · rw [if_neg hpar]
        rw [if_neg (by omega)]
        push_cast
        rw [hflq]

theorem calculateConfidenceFromCovSq_sq (n : Nat) (v : ℚ) (hv : 0 ≤ v) :
    calculateConfidenceFromCovSq n (v ^ 2) = calculateConfidence n v := by
  unfold calculateConfidenceFromCovSq calculateConfidence
  simp only []
  have hos0 : 0 ≤ min ((n : ℚ) / 6) 1 := le_min (by positivity) zero_le_one
  have hos1 : min ((n : ℚ) / 6) 1 ≤ 1 := min_le_right _ _
  by_cases hw : 1 < v ^ 2
  · rw [if_pos hw]
    have hv1 : 1 < v := (sq_lt_sq_iff_nonneg zero_le_one hv).mp (by rw [one_pow]; exact hw)
    rw [max_eq_left (by linarith)]
    congr 1
    ring
  · rw [if_neg hw]
    push_neg at hw
    have hv1 : v ≤ 1 := by
      by_contra hgt
      push_neg at hgt
      have h := (sq_lt_sq_iff_nonneg zero_le_one hv).mpr hgt
      rw [one_pow] at h
      exact absurd h (not_lt.mpr hw)
    rw [max_eq_right (by linarith)]
    have hm := roundMachinery_eq (60 * min ((n : ℚ) / 6) 1 + 40) v hv
      (by nlinarith) (by nlinarith)
    rw [hm]
    unfold pyRound2
    have harg : (min ((n : ℚ) / 6) 1 * (6 / 10) + (1 - v) * (4 / 10)) * 100
        = 60 * min ((n : ℚ) / 6) 1 + 40 - 40 * v := by ring
    rw [harg]

/-- C5: for every matched run with `n` occurrences and coefficient of
variation `v` (stated for rational `v`, fixed by `v^2` equalling the squared
CoV the scorer computes), the emitted Pattern's confidence equals
`0.6 × min(n/6, 1.0) + 0.4 × max(0, 1.0 − v)` rounded (half-to-even) to 2
decimal places. -/
theorem C5_confidence (l : List Txn) (k : GroupKey) (rt : String) (p : Pattern)
    (v : ℚ) (hv : 0 ≤ v) (hcov : v ^ 2 = covSquared (absAmounts l))
    (h : createPatternMetadata l k rt = some p) :
    p.confidence
      = pyRound2 ((6 / 10) * min (((p.occurrences : ℕ) : ℚ) / 6) 1
          + (4 / 10) * max 0 (1 - v)) := by
  obtain ⟨ho, _, _, _, _, _, _, _, hconf⟩ := createPatternMetadata_fields h
  rw [hconf, ← hcov, calculateConfidenceFromCovSq_sq l.length v hv, ho]
  unfold calculateConfidence
  simp only []
  have harg : min (((l.length : ℕ) : ℚ) / 6) 1 * (6 / 10) + max 0 (1 - v) * (4 / 10)
      = (6 / 10) * min (((l.length : ℕ) : ℚ) / 6) 1 + (4 / 10) * max 0 (1 - v) := by
    ring
  rw [harg]

unseal Rat.add Rat.mul Rat.sub Rat.inv in
/-- Witness for C5: the 30/40/50 run has the rational CoV 1/4, and its
confidence is round2(0.6 × 3/6 + 0.4 × 3/4) = 0.6. -/
theorem C5_confidence_witness :
    ∃ p, createPatternMetadata exampleRationalCov ("Shop", "Groceries", "expense") "monthly" = some p
      ∧ p.confidence
          = pyRound2 ((6 / 10) * min (((p.occurrences : ℕ) : ℚ) / 6) 1
              + (4 / 10) * max 0 (1 - 1 / 4)) := by
  obtain ⟨p, hp⟩ := Option.isSome_iff_exists.mp
    (show (createPatternMetadata exampleRationalCov
      ("Shop", "Groceries", "expense") "monthly").isSome = true by decide)
  exact ⟨p, hp, C5_confidence exampleRationalCov ("Shop", "Groceries", "expense")
    "monthly" p (1 / 4) (by norm_num) (by decide) hp⟩
